import Mathlib

/-!
Shallow embedding of the customer-distribution app's sync pipeline:
merge/deduplication (`App.tsx`), local persistence (`services/storage.ts`
and the cloud-variant storage module), cloud reconciliation, map-link
enrichment (`services/gemini.ts` and its variant), and city aggregation.

Timestamps: the source stores `createdAt` as a string and compares via
`new Date(x || 0).getTime()`.  The `Customer` record embeds the parsed
time value as `Option Nat` (a missing value comparing as the epoch),
which suffices for the stamping and fallback claims.  The load-order
claim additionally needs the case of a stored string the host `Date`
parser rejects (NaN) — such as the `toLocaleString('zh-TW')` stamps the
local save itself writes — so a refined model near the end of the file
keeps the stored string and abstracts the parser as a function into a
number-or-NaN type, with the comparator mapping NaN to a tie exactly as
`SortCompare` does.

The localStorage slot is embedded as `Store := Option (Except Unit (List
Customer))`: `none` is an absent key, `some (.error ())` is a blob that
does not parse as a customer array, `some (.ok l)` is a parsed array.
-/

namespace CustomerApp

/-- `syncStatus` tags from `types.ts`: `'local' | 'syncing' | 'synced'`.
(`local` is a Lean keyword, so the first tag is named `loc`.) -/
inductive SyncStatus where
  | loc
  | syncing
  | synced
deriving DecidableEq, Repr

/-- Customer record from `types.ts` (cloud-variant superset, which adds
`syncStatus`).  Coordinates are never computed with, only stored, so they
are embedded as optional integers. -/
structure Customer where
  id : String
  name : String
  address : String
  city : String
  lat : Option Int := none
  lng : Option Int := none
  mapUrl : Option String := none
  createdAt : Option Nat := none
  syncStatus : Option SyncStatus := none
deriving DecidableEq, Repr

/-- The localStorage slot for the fixed key. -/
abbrev Store := Option (Except Unit (List Customer))

/-- JS truthiness of a string: truthy iff non-empty. -/
def jsTruthyStr (s : String) : Bool := !s.isEmpty

/-- Time value used by the storage comparator:
`new Date(c.createdAt || 0).getTime()` — a missing `createdAt` is the
epoch. -/
def dateVal (c : Customer) : Nat := c.createdAt.getD 0

/-- The comparator order of `parsed.sort((a, b) => dateB - dateA)`:
non-increasing by `createdAt` time value. -/
def createdDescOrder (a b : Customer) : Prop := dateVal b ≤ dateVal a

instance : DecidableRel createdDescOrder := fun _ _ => Nat.decLe _ _

instance : IsTotal Customer createdDescOrder :=
  ⟨fun a b => (Nat.le_total (dateVal b) (dateVal a)).imp id id⟩

instance : IsTrans Customer createdDescOrder :=
  ⟨fun _ _ _ h1 h2 => Nat.le_trans h2 h1⟩

/-- The sort performed by the loaders: stable, non-increasing by
`createdAt`.  (JS `Array.prototype.sort` is stable and its result is
ordered by the comparator; insertion sort realises both.) -/
def sortByCreatedDesc (l : List Customer) : List Customer :=
  List.insertionSort createdDescOrder l

/-- `loadCustomersFromDB` of `services/storage.ts`: read the blob; absent
key or a parse/sort failure yields `[]`; otherwise sort by `createdAt`
descending. -/
def loadCustomersFromDB (stored : Store) : List Customer :=
  match stored with
  | none => []
  | some (Except.error _) => []
  | some (Except.ok l) => sortByCreatedDesc l

/-- `getLocalData` of the cloud-variant storage module: identical logic
to the local loader. -/
def getLocalData (stored : Store) : List Customer :=
  match stored with
  | none => []
  | some (Except.error _) => []
  | some (Except.ok l) => sortByCreatedDesc l

/-- Per-record stamping of `saveCustomersToDB` (`services/storage.ts`):
`createdAt: c.createdAt || now, syncStatus: c.syncStatus || 'local'`. -/
def saveStamp (now : Nat) (c : Customer) : Customer :=
  { c with createdAt := some (c.createdAt.getD now),
           syncStatus := some (c.syncStatus.getD SyncStatus.loc) }

/-- Per-record stamping of the cloud-variant `saveCustomersToDB`:
`createdAt: c.createdAt || now, syncStatus: c.syncStatus || 'syncing'`. -/
def saveStampCloud (now : Nat) (c : Customer) : Customer :=
  { c with createdAt := some (c.createdAt.getD now),
           syncStatus := some (c.syncStatus.getD SyncStatus.syncing) }

/-- `saveCustomersToDB`: stamp every record, then write the whole list as
one blob; `writeOk` models whether `JSON.stringify`/`setItem` succeeds
(quota/serialisation).  Returns the new store and the reported boolean. -/
def saveCustomersToDB (now : Nat) (writeOk : Bool) (store : Store)
    (customers : List Customer) : Store × Bool :=
  if writeOk then
    (some (Except.ok (customers.map (saveStamp now))), true)
  else
    (store, false)

/-- The merge performed before persisting (`handleFilesSelect` /
`handleImportJson` in `App.tsx`): keep only incoming records whose id is
not among the existing ids, then prepend them to the existing list. -/
def mergeCustomers (existing incoming : List Customer) : List Customer :=
  let existingIds := existing.map (fun c => c.id)
  let newUniqueOnes := incoming.filter (fun c => !(existingIds.contains c.id))
  newUniqueOnes ++ existing

/-! ### Cloud reconciliation (cloud-variant storage module) -/

/-- What the pipeline inspects of a thrown Firestore error: its `code`
string and whether `message.toLowerCase()` contains `"permission"`. -/
structure CloudError where
  code : String
  messageMentionsPermission : Bool
deriving DecidableEq, Repr

/-- The classified error kinds of `LoadResult.errorType`. -/
inductive ErrType where
  | permissionDenied
  | network
  | initialization
  | other
deriving DecidableEq, Repr

/-- `LoadResult.source`: `'cloud' | 'local'`. -/
inductive Source where
  | cloud
  | localSrc
deriving DecidableEq, Repr

/-- The cloud loader's result shape. -/
structure LoadResult where
  data : List Customer
  source : Source
  errorType : Option ErrType := none
deriving DecidableEq, Repr

/-- Error classification in the cloud loader's catch block:
permission-denied code or a "permission" message, else `unavailable` code
or `!navigator.onLine`, else `other`. -/
def classifyLoadError (e : CloudError) (online : Bool) : ErrType :=
  if e.code = "permission-denied" || e.messageMentionsPermission then
    ErrType.permissionDenied
  else if e.code = "unavailable" || !online then
    ErrType.network
  else
    ErrType.other

/-- Cloud-variant `loadCustomersFromDB`: `dbReady` is whether `getDB()`
returned an instance, `cloudResult` the outcome of the ordered Firestore
query.  On success the cloud snapshot overwrites the local one; on
failure (or when the client never initialised) the local snapshot is
returned with a classified error. -/
def loadCustomersFromDBCloud (dbReady : Bool) (online : Bool)
    (cloudResult : Except CloudError (List Customer)) (store : Store) :
    LoadResult × Store :=
  if dbReady then
    match cloudResult with
    | Except.ok cloudData =>
        ({ data := cloudData, source := Source.cloud, errorType := none },
         some (Except.ok cloudData))
    | Except.error e =>
        ({ data := getLocalData store, source := Source.localSrc,
           errorType := some (classifyLoadError e online) }, store)
  else
    ({ data := getLocalData store, source := Source.localSrc,
       errorType := some ErrType.initialization }, store)

/-- Errors surfaced by `syncDataWithCloud`. -/
inductive SyncError where
  | notInitialized
  | permissionDenied
  | other (e : CloudError)
deriving DecidableEq, Repr

/-- Cloud-variant `syncDataWithCloud`: throws if the client never
initialised; otherwise commits one batched write (`commitOk` its
outcome).  On success every record is tagged `synced` and the local
snapshot is overwritten to match; on failure the error is classified and
rethrown with the local snapshot untouched. -/
def syncDataWithCloud (dbReady commitOk : Bool) (err : CloudError)
    (store : Store) (customers : List Customer) :
    Except SyncError (List Customer) × Store :=
  if !dbReady then
    (Except.error SyncError.notInitialized, store)
  else if commitOk then
    let syncedData := customers.map
      (fun c => { c with syncStatus := some SyncStatus.synced })
    (Except.ok syncedData, some (Except.ok syncedData))
  else if err.code = "permission-denied" || err.messageMentionsPermission then
    (Except.error SyncError.permissionDenied, store)
  else
    (Except.error (SyncError.other err), store)

/-! ### Map-link enrichment (`services/gemini.ts` and its variant) -/

/-- The `maps` payload of a grounding chunk. -/
structure MapsChunk where
  uri : Option String := none
deriving DecidableEq, Repr

/-- A grounding chunk as the enrichment code inspects it. -/
structure Chunk where
  maps : Option MapsChunk := none
deriving DecidableEq, Repr

/-- The usable map URI of a chunk: present iff `chunk.maps` and
`chunk.maps.uri` are both truthy. -/
def chunkUri (ch : Chunk) : Option String :=
  match ch.maps with
  | none => none
  | some mc =>
      match mc.uri with
      | none => none
      | some u => if jsTruthyStr u then some u else none

/-- The filter of the variant module:
`chunks.filter(chunk => chunk.maps && chunk.maps.uri)`. -/
def chunkHasMapsUri (ch : Chunk) : Bool := (chunkUri ch).isSome

/-- `c.mapUrl` is truthy (JS `!c.mapUrl` is false). -/
def mapPresent (c : Customer) : Bool :=
  match c.mapUrl with
  | none => false
  | some s => jsTruthyStr s

/-- JS `Map.set`: replace the value of an existing key, else append. -/
def mapSet (m : List (String × String)) (k v : String) :
    List (String × String) :=
  if m.any (fun p => p.1 = k) then
    m.map (fun p => if p.1 = k then (k, v) else p)
  else
    m ++ [(k, v)]

/-- `updatedMap` built by zipping chunks with the searched customers by
index: `chunks.forEach((chunk, i) => if (chunk.maps && chunk.maps.uri &&
toSearch[i]) set(toSearch[i].id, uri))`. -/
def buildUpdatedMap (toSearch : List Customer) (chunks : List Chunk) :
    List (String × String) :=
  chunks.enum.foldl
    (fun m p =>
      match chunkUri p.2 with
      | some u =>
          match toSearch[p.1]? with
          | some cust => mapSet m cust.id u
          | none => m
      | none => m)
    []

/-- The final per-record update:
`{...c, mapUrl: updatedMap.get(c.id) || c.mapUrl}`. -/
def applyMapUrl (m : List (String × String)) (c : Customer) : Customer :=
  { c with mapUrl :=
      match m.lookup c.id with
      | some u => if jsTruthyStr u then some u else c.mapUrl
      | none => c.mapUrl }

/-- `fetchGoogleMapLinks` of `services/gemini.ts`: filter to the records
without a truthy `mapUrl`, short-circuit when none remain, consult the
gateway on the filtered list (this variant has no try/catch, so a gateway
error propagates), and merge found URIs back over the full list. -/
def fetchGoogleMapLinks (customers : List Customer)
    (gw : List Customer → Except Unit (List Chunk)) :
    Except Unit (List Customer) :=
  let toSearch := customers.filter (fun c => !(mapPresent c))
  if toSearch.isEmpty then Except.ok customers
  else
    match gw toSearch with
    | Except.error e => Except.error e
    | Except.ok chunks =>
        Except.ok (customers.map (applyMapUrl (buildUpdatedMap toSearch chunks)))

/-- The variant module's `fetchGoogleMapLinks`: same pipeline, but chunks
are pre-filtered to map-bearing ones, and the whole gateway call is in a
try/catch that returns the original list on error. -/
def fetchGoogleMapLinksV2 (customers : List Customer)
    (gw : List Customer → Except Unit (List Chunk)) : List Customer :=
  let toSearch := customers.filter (fun c => !(mapPresent c))
  if toSearch.isEmpty then customers
  else
    match gw toSearch with
    | Except.error _ => customers
    | Except.ok chunks =>
        customers.map
          (applyMapUrl (buildUpdatedMap toSearch (chunks.filter chunkHasMapsUri)))

/-! ### Import flows (`App.tsx`) -/

/-- State update of `handleFilesSelect` in the first `App.tsx` copy
(lines 88–97): merge, await the save, then assign the merged list —
the boolean returned by the save is not consulted.  Returns the new
in-memory list, the new store, and whether the flow reported success. -/
def handleFilesSelectV1 (now : Nat) (writeOk : Bool) (store : Store)
    (prev enhanced : List Customer) : List Customer × Store × Bool :=
  let updatedList := mergeCustomers prev enhanced
  let saved := saveCustomersToDB now writeOk store updatedList
  (updatedList, saved.1, true)

/-- State update of `handleFilesSelect` in the second `App.tsx` copy
(lines 328–343): merge, await the save, and assign the merged list only
when the save reported success; otherwise throw into the catch block,
leaving the previous list in place. -/
def handleFilesSelectV2 (now : Nat) (writeOk : Bool) (store : Store)
    (prev enhanced : List Customer) : List Customer × Store × Bool :=
  let updatedList := mergeCustomers prev enhanced
  let saved := saveCustomersToDB now writeOk store updatedList
  if saved.2 then (updatedList, saved.1, true) else (prev, saved.1, false)

/-- State update of `handleImportJson` (both `App.tsx` copies): merge the
parsed backup, await the save, then assign the merged list — neither copy
consults the boolean returned by the save. -/
def handleImportJsonUpdate (now : Nat) (writeOk : Bool) (store : Store)
    (prev imported : List Customer) : List Customer × Store × Bool :=
  let updatedList := mergeCustomers prev imported
  let saved := saveCustomersToDB now writeOk store updatedList
  (updatedList, saved.1, true)

/-! ### City aggregation (`cityStats` in `App.tsx`)

`stats` is a plain JS object.  Its own-property enumeration order (used
by `Object.entries`) is: keys that are canonical array indices first, in
ascending numeric order, then the remaining string keys in insertion
order.  `Array.prototype.sort` is stable, so ties under the
`b.count - a.count` comparator keep that enumeration order. -/

/-- A `(city, count)` aggregate entry. -/
structure CityStat where
  city : String
  count : Nat
deriving DecidableEq, Repr

/-- `stats[city] = (stats[city] || 0) + 1` on an object embedded as an
insertion-ordered association list with unique keys. -/
def jsRecordBump (stats : List (String × Nat)) (city : String) :
    List (String × Nat) :=
  if stats.any (fun p => p.1 = city) then
    stats.map (fun p => if p.1 = city then (p.1, p.2 + 1) else p)
  else
    stats ++ [(city, 1)]

/-- The accumulation loop of `cityStats`: count every record with a
truthy `city`. -/
def buildStats (customers : List Customer) : List (String × Nat) :=
  customers.foldl
    (fun stats c => if jsTruthyStr c.city then jsRecordBump stats c.city else stats)
    []

/-- The numeric value of a decimal digit character, if it is one. -/
def charDigit (c : Char) : Option Nat :=
  if c = '0' then some 0 else if c = '1' then some 1
  else if c = '2' then some 2 else if c = '3' then some 3
  else if c = '4' then some 4 else if c = '5' then some 5
  else if c = '6' then some 6 else if c = '7' then some 7
  else if c = '8' then some 8 else if c = '9' then some 9 else none

/-- Parse a list of characters as a decimal number; `none` when any
character is not a digit. -/
def digitsToNat (cs : List Char) : Option Nat :=
  cs.foldl
    (fun acc c =>
      match acc, charDigit c with
      | some n, some d => some (n * 10 + d)
      | _, _ => none)
    (some 0)

/-- A string is a canonical array-index key in JS: a non-empty digit
string with no leading zero (except `"0"` itself) denoting some
`n ≤ 2^32 - 2`. -/
def isArrayIndexKey (s : String) : Bool :=
  match s.data with
  | [] => false
  | c :: cs =>
      match digitsToNat (c :: cs) with
      | some n => (!(c = '0') || cs.isEmpty) && decide (n ≤ 4294967294)
      | none => false

/-- The numeric value of an array-index key (0 for other strings). -/
def arrayIndexVal (s : String) : Nat := (digitsToNat s.data).getD 0

/-- Ascending numeric order on array-index keys. -/
def keyAscOrder (p q : String × Nat) : Prop :=
  arrayIndexVal p.1 ≤ arrayIndexVal q.1

instance : DecidableRel keyAscOrder := fun _ _ => Nat.decLe _ _

instance : IsTotal (String × Nat) keyAscOrder :=
  ⟨fun p q => Nat.le_total (arrayIndexVal p.1) (arrayIndexVal q.1)⟩

instance : IsTrans (String × Nat) keyAscOrder :=
  ⟨fun _ _ _ h1 h2 => Nat.le_trans h1 h2⟩

/-- `Object.entries(stats)`: array-index keys first in ascending numeric
order, then the remaining keys in insertion order. -/
def jsObjectEntries (stats : List (String × Nat)) : List (String × Nat) :=
  List.insertionSort keyAscOrder (stats.filter (fun p => isArrayIndexKey p.1))
    ++ stats.filter (fun p => !(isArrayIndexKey p.1))

/-- The stable descending-count order of `.sort((a, b) => b.count - a.count)`. -/
def countDescOrder (s t : CityStat) : Prop := t.count ≤ s.count

instance : DecidableRel countDescOrder := fun _ _ => Nat.decLe _ _

instance : IsTotal CityStat countDescOrder :=
  ⟨fun s t => (Nat.le_total t.count s.count).imp id id⟩

instance : IsTrans CityStat countDescOrder :=
  ⟨fun _ _ _ h1 h2 => Nat.le_trans h2 h1⟩

/-- `cityStats` of `App.tsx`: count records by truthy `city` into an
object, take its entries, and stable-sort them descending by count. -/
def cityStats (customers : List Customer) : List CityStat :=
  List.insertionSort countDescOrder
    ((jsObjectEntries (buildStats customers)).map (fun p => ⟨p.1, p.2⟩))

/-- The cities of the aggregate in the order the spec dictates for
tie-breaking, following the spec's words: first-seen order of each
non-empty city in the input sequence. -/
def firstSeenCities (customers : List Customer) : List String :=
  customers.foldl
    (fun acc c =>
      if jsTruthyStr c.city && !(acc.contains c.city) then acc ++ [c.city]
      else acc)
    []

/-! ### Helper lemmas -/

theorem contains_eq_decide_mem (l : List String) (x : String) :
    l.contains x = decide (x ∈ l) := by
  induction l with
  | nil => rfl
  | cons a t ih =>
      by_cases h : a = x
      · subst h
        simp [List.contains_cons]
      · simp [List.contains_cons, ih, Ne.symm h, h]

theorem mergeCustomers_eq_filter_append (E I : List Customer) :
    mergeCustomers E I
      = I.filter (fun c => decide (c.id ∉ E.map Customer.id)) ++ E := by
  unfold mergeCustomers
  refine congrArg (· ++ E) (List.filter_congr ?_)
  intro c _
  simp only [contains_eq_decide_mem, decide_not]

/-- Sample customers used by the concrete scenarios. -/
def cust1 : Customer := { id := "1", name := "n1", address := "a1", city := "Taipei" }

def cust2 : Customer := { id := "2", name := "n2", address := "a2", city := "Taichung" }

/-- A second record sharing `cust1`'s id. -/
def cust1' : Customer := { id := "1", name := "n9", address := "a9", city := "Kaohsiung" }

/-! ### Claims -/

/-- C1: the merge performed before persisting returns exactly those
incoming records whose id equals no id of an existing record, in their
original order, followed by all of the existing records unchanged; for
E = `[id "1"]` and I = `[id "1", id "2"]` the result has 2 records with
`"2"` first. -/
theorem claim1_merge_filter_prepend : ∀ (E I : List Customer),
    (mergeCustomers E I
      = I.filter (fun c => decide (c.id ∉ E.map Customer.id)) ++ E)
  ∧ mergeCustomers [cust1] [cust1, cust2] = [cust2, cust1]
  ∧ (mergeCustomers [cust1] [cust1, cust2]).length = 2
  ∧ (mergeCustomers [cust1] [cust1, cust2]).map Customer.id = ["2", "1"] := by
  intro E I
  exact ⟨mergeCustomers_eq_filter_append E I, by decide, by decide, by decide⟩

/-- C2 counterexample: an incoming batch that repeats an id internally
(two distinct records with id `"1"`) is merged into an empty existing
collection, and the resulting collection has two records sharing the id
`"1"`, violating the claimed uniqueness invariant. -/
theorem claim2_counterexample :
    ¬ (((mergeCustomers [] [cust1, cust1']).map Customer.id).Nodup)
    ∧ (mergeCustomers [] [cust1, cust1']).length = 2 := by
  constructor
  · decide
  · decide

/-- C2 (amended): provided the incoming batch itself carries pairwise
distinct ids, the merge preserves id-uniqueness (also after the save
stamps the records); and a record whose id duplicates an id already
present in the existing data is never added — the occurrence count of
such an id in the merged collection equals its count in the existing
collection. -/
theorem claim2_unique_ids : ∀ (E I : List Customer) (now : Nat),
    ((E.map Customer.id).Nodup → (I.map Customer.id).Nodup →
      (((mergeCustomers E I).map Customer.id).Nodup
        ∧ (((mergeCustomers E I).map (saveStamp now)).map Customer.id).Nodup))
  ∧ (∀ c ∈ I, c.id ∈ E.map Customer.id →
      ((mergeCustomers E I).map Customer.id).count c.id
        = (E.map Customer.id).count c.id) := by
  intro E I now
  have hmerge := mergeCustomers_eq_filter_append E I
  have hid : ∀ x : Customer,
      x ∈ I.filter (fun c => decide (c.id ∉ E.map Customer.id)) →
      x.id ∉ E.map Customer.id := by
    intro x hx
    have := List.of_mem_filter hx
    simpa using this
  constructor
  · intro hE hI
    have hfilter :
        ((I.filter (fun c => decide (c.id ∉ E.map Customer.id))).map
          Customer.id).Nodup := by
      exact ((List.filter_sublist I).map Customer.id).nodup hI
    have hnodup : ((mergeCustomers E I).map Customer.id).Nodup := by
      rw [hmerge, List.map_append]
      rw [List.nodup_append]
      refine ⟨hfilter, hE, ?_⟩
      intro x hx
      obtain ⟨c, hc, rfl⟩ := List.mem_map.mp hx
      exact hid c hc
    refine ⟨hnodup, ?_⟩
    have hids : ((mergeCustomers E I).map (saveStamp now)).map Customer.id
        = (mergeCustomers E I).map Customer.id := by
      rw [List.map_map]
      rfl
    rw [hids]
    exact hnodup
  · intro c _ hcE
    rw [hmerge, List.map_append, List.count_append]
    have : c.id ∉ (I.filter (fun x => decide (x.id ∉ E.map Customer.id))).map
        Customer.id := by
      intro hmem
      obtain ⟨d, hd, hdc⟩ := List.mem_map.mp hmem
      exact hid d hd (hdc ▸ hcE)
    rw [List.count_eq_zero.mpr this, Nat.zero_add]

/-- C2 witness: a concrete duplicate-free merge. -/
theorem claim2_witness :
    ((mergeCustomers [cust1] [cust1', cust2]).map Customer.id).Nodup
    ∧ ((mergeCustomers [cust1] [cust1', cust2]).map Customer.id).count "1" = 1 := by
  have h := claim2_unique_ids [cust1] [cust1', cust2] 0
  refine ⟨(h.1 (by decide) (by decide)).1, ?_⟩
  have := h.2 cust1' (by decide) (by decide)
  simpa using this

/-- C4: save stamps the current timestamp only on records lacking
`createdAt`; a record that already has `createdAt` keeps it verbatim, and
re-stamping a stamped record (or a whole stamped collection) is the
identity, in both the local and the cloud storage variants. -/
theorem claim4_createdAt_immutable :
    ∀ (now now2 t : Nat) (c : Customer) (l : List Customer),
    (saveStamp now { c with createdAt := some t }).createdAt = some t
  ∧ (saveStamp now { c with createdAt := none }).createdAt = some now
  ∧ (saveStamp now c).createdAt = some (c.createdAt.getD now)
  ∧ saveStamp now2 (saveStamp now c) = saveStamp now c
  ∧ (l.map (saveStamp now)).map (saveStamp now2) = l.map (saveStamp now)
  ∧ (saveStampCloud now { c with createdAt := some t }).createdAt = some t
  ∧ saveStampCloud now2 (saveStampCloud now c) = saveStampCloud now c := by
  intro now now2 t c l
  have hstamp : ∀ c' : Customer, saveStamp now2 (saveStamp now c') = saveStamp now c' := by
    intro c'
    simp [saveStamp]
  have hcloud : saveStampCloud now2 (saveStampCloud now c) = saveStampCloud now c := by
    simp [saveStampCloud]
  refine ⟨rfl, rfl, rfl, hstamp c, ?_, rfl, hcloud⟩
  rw [List.map_map]
  exact List.map_congr_left (fun c' _ => hstamp c')

/-- C9: `load` never raises: an absent storage key or a corrupt,
unparseable blob yields the empty collection, in both the local loader
and the cloud variant's local fallback. -/
theorem claim9_corruption_tolerance :
    loadCustomersFromDB none = []
  ∧ loadCustomersFromDB (some (Except.error ())) = []
  ∧ getLocalData none = []
  ∧ getLocalData (some (Except.error ())) = [] :=
  ⟨rfl, rfl, rfl, rfl⟩

/-- C5: either the batched upsert succeeds and every record of the
returned (and newly persisted) collection is tagged `synced`, or the call
surfaces an error and the local snapshot is untouched; in particular a
failed commit always surfaces the failure and leaves the store (and hence
every persisted record's `syncStatus`) unchanged. -/
theorem claim5_sync_all_or_nothing :
    ∀ (dbReady commitOk : Bool) (err : CloudError) (store : Store)
      (customers : List Customer),
    (commitOk = false →
      (∃ e, (syncDataWithCloud dbReady commitOk err store customers).1
          = Except.error e)
      ∧ (syncDataWithCloud dbReady commitOk err store customers).2 = store)
  ∧ ((syncDataWithCloud dbReady commitOk err store customers).2 = store
      ∨ ∃ l, (syncDataWithCloud dbReady commitOk err store customers).1
            = Except.ok l
          ∧ (syncDataWithCloud dbReady commitOk err store customers).2
            = some (Except.ok l)
          ∧ ∀ c ∈ l, c.syncStatus = some SyncStatus.synced) := by
  intro dbReady commitOk err store customers
  cases dbReady with
  | false =>
      exact ⟨fun _ => ⟨⟨SyncError.notInitialized, rfl⟩, rfl⟩, Or.inl rfl⟩
  | true =>
      cases commitOk with
      | true =>
          refine ⟨fun h => absurd h (by simp), Or.inr ⟨_, rfl, rfl, ?_⟩⟩
          intro c hc
          obtain ⟨d, _, rfl⟩ := List.mem_map.mp hc
          rfl
      | false =>
          by_cases hcls :
              (err.code = "permission-denied" || err.messageMentionsPermission)
                = true
          · refine ⟨fun _ => ⟨⟨SyncError.permissionDenied, ?_⟩, ?_⟩, Or.inl ?_⟩
              <;> simp [syncDataWithCloud, hcls]
          · refine ⟨fun _ => ⟨⟨SyncError.other err, ?_⟩, ?_⟩, Or.inl ?_⟩
              <;> simp [syncDataWithCloud, hcls]

/-- Five customers for the Scenario D witness. -/
def fiveCustomers : List Customer :=
  [cust1, cust2, { cust1 with id := "3" }, { cust1 with id := "4" },
   { cust1 with id := "5" }]

/-- A network-ish cloud error. -/
def netErr : CloudError := { code := "unavailable", messageMentionsPermission := false }

/-- C5 witness: syncing 5 records while the batched write fails surfaces
an error and leaves the persisted snapshot exactly as it was. -/
theorem claim5_witness :
    (∃ e, (syncDataWithCloud true false netErr (some (Except.ok fiveCustomers))
        fiveCustomers).1 = Except.error e)
  ∧ (syncDataWithCloud true false netErr (some (Except.ok fiveCustomers))
        fiveCustomers).2 = some (Except.ok fiveCustomers) := by
  have h := (claim5_sync_all_or_nothing true false netErr
    (some (Except.ok fiveCustomers)) fiveCustomers).1 rfl
  exact ⟨h.1, h.2⟩

/-- Three customers, already in `createdAt`-descending order, for the
Scenario C conjunct. -/
def threeCustomers : List Customer :=
  [{ cust1 with createdAt := some 3 }, { cust2 with createdAt := some 2 },
   { cust1' with id := "9", createdAt := some 1 }]

/-- C6: when the remote client never became ready or the cloud read
fails, the cloud loader returns the local snapshot with source `local`
and a classified error (one of the four kinds), without touching the
store and without propagating; with a network-classified failure and 3
local records it returns those 3 records tagged source local, errorType
network. -/
theorem claim6_cloud_read_fallback :
    ∀ (online : Bool) (e : CloudError) (store : Store)
      (cr : Except CloudError (List Customer)),
    ((loadCustomersFromDBCloud true online (Except.error e) store).1.source
        = Source.localSrc
      ∧ (loadCustomersFromDBCloud true online (Except.error e) store).1.data
        = getLocalData store
      ∧ (loadCustomersFromDBCloud true online (Except.error e) store).1.errorType
        = some (classifyLoadError e online)
      ∧ (loadCustomersFromDBCloud true online (Except.error e) store).2 = store)
  ∧ (loadCustomersFromDBCloud false online cr store).1
      = { data := getLocalData store, source := Source.localSrc,
          errorType := some ErrType.initialization }
  ∧ (loadCustomersFromDBCloud false online cr store).2 = store
  ∧ (classifyLoadError e online = ErrType.permissionDenied
      ∨ classifyLoadError e online = ErrType.network
      ∨ classifyLoadError e online = ErrType.other)
  ∧ loadCustomersFromDBCloud true true (Except.error netErr)
        (some (Except.ok threeCustomers))
      = ({ data := threeCustomers, source := Source.localSrc,
           errorType := some ErrType.network },
         some (Except.ok threeCustomers)) := by
  intro online e store cr
  refine ⟨⟨rfl, rfl, rfl, rfl⟩, rfl, rfl, ?_, rfl⟩
  unfold classifyLoadError
  split
  · exact Or.inl rfl
  · split
    · exact Or.inr (Or.inl rfl)
    · exact Or.inr (Or.inr rfl)

/-- A gateway that always fails. -/
def failingGateway : List Customer → Except Unit (List Chunk) :=
  fun _ => Except.error ()

/-- C7 counterexample: in the `services/gemini.ts` variant, a gateway
error while enriching a record without a map link propagates to the
caller instead of returning the original input list. -/
theorem claim7_counterexample :
    fetchGoogleMapLinks [cust1] failingGateway = Except.error ()
    ∧ fetchGoogleMapLinks [cust1] failingGateway ≠ Except.ok [cust1] := by
  refine ⟨rfl, ?_⟩
  intro h
  rw [show fetchGoogleMapLinks [cust1] failingGateway = Except.error () from rfl]
    at h
  exact Except.noConfusion h

/-- C7 (amended): both enrichment variants consult the gateway only on
the records without a truthy map link (their result depends on the
gateway only through its value on that filtered list); on gateway
success they return the full input list with `mapUrl` merged in, and a
record matched by no found URI passes through unchanged; on gateway
error the variant module returns the original list unmodified, while the
`services/gemini.ts` variant propagates the error to its caller. -/
theorem claim7_enrichment :
    ∀ (customers : List Customer)
      (g g' : List Customer → Except Unit (List Chunk)),
    (g (customers.filter (fun c => !(mapPresent c)))
        = g' (customers.filter (fun c => !(mapPresent c))) →
      fetchGoogleMapLinks customers g = fetchGoogleMapLinks customers g'
      ∧ fetchGoogleMapLinksV2 customers g = fetchGoogleMapLinksV2 customers g')
  ∧ (∀ e, g (customers.filter (fun c => !(mapPresent c))) = Except.error e →
      fetchGoogleMapLinksV2 customers g = customers
      ∧ ((customers.filter (fun c => !(mapPresent c))).isEmpty = false →
          fetchGoogleMapLinks customers g = Except.error e))
  ∧ (∀ chunks,
      g (customers.filter (fun c => !(mapPresent c))) = Except.ok chunks →
      (customers.filter (fun c => !(mapPresent c))).isEmpty = false →
      fetchGoogleMapLinks customers g
        = Except.ok (customers.map (applyMapUrl
            (buildUpdatedMap (customers.filter (fun c => !(mapPresent c)))
              chunks)))
      ∧ fetchGoogleMapLinksV2 customers g
        = customers.map (applyMapUrl
            (buildUpdatedMap (customers.filter (fun c => !(mapPresent c)))
              (chunks.filter chunkHasMapsUri))))
  ∧ (∀ (m : List (String × String)) (c : Customer),
      m.lookup c.id = none → applyMapUrl m c = c) := by
  intro customers g g'
  refine ⟨?_, ?_, ?_, ?_⟩
  · intro hgg
    unfold fetchGoogleMapLinks fetchGoogleMapLinksV2
    dsimp only
    rw [hgg]
    exact ⟨rfl, rfl⟩
  · intro e hge
    unfold fetchGoogleMapLinks fetchGoogleMapLinksV2
    dsimp only
    rw [hge]
    constructor
    · split <;> rfl
    · intro hne
      simp only [hne]
      rfl
  · intro chunks hgok hne
    unfold fetchGoogleMapLinks fetchGoogleMapLinksV2
    dsimp only
    rw [hgok]
    simp only [hne]
    exact ⟨rfl, rfl⟩
  · intro m c h
    simp only [applyMapUrl, h]

/-- A single successful chunk carrying a URI. -/
def okChunk : Chunk := { maps := some { uri := some "https://maps.example/x" } }

/-- A gateway that always returns one map chunk. -/
def okGateway : List Customer → Except Unit (List Chunk) :=
  fun _ => Except.ok [okChunk]

/-- C7 witness: the amended theorem applied at concrete inputs — a
failing gateway call leaves the variant module's output at the original
one-record list, a succeeding one populates `mapUrl`, and an unmatched
record passes through an empty update map unchanged. -/
theorem claim7_witness :
    fetchGoogleMapLinksV2 [cust1] failingGateway = [cust1]
  ∧ fetchGoogleMapLinks [cust1] okGateway
      = Except.ok [{ cust1 with mapUrl := some "https://maps.example/x" }]
  ∧ applyMapUrl [] cust2 = cust2 := by
  have hfail := ((claim7_enrichment [cust1] failingGateway failingGateway).2.1
    () rfl).1
  have hok := ((claim7_enrichment [cust1] okGateway okGateway).2.2.1
    [okChunk] rfl (by decide)).1
  have hpass := (claim7_enrichment [cust1] okGateway okGateway).2.2.2 [] cust2 rfl
  refine ⟨hfail, ?_, hpass⟩
  rw [hok]
  rfl

/-- C8 counterexample: in the first `App.tsx` copy's file-import flow,
the local save reports failure (`writeOk = false`) yet the in-memory
collection is still advanced from `[]` to the merged (unsaved) list and
the flow reports success; the backup-import flow behaves the same. -/
theorem claim8_counterexample :
    (handleFilesSelectV1 0 false none [] [cust1]).1 = [cust1]
  ∧ (handleFilesSelectV1 0 false none [] [cust1]).2.2 = true
  ∧ (handleImportJsonUpdate 0 false none [] [cust1]).1 = [cust1]
  ∧ ([cust1] : List Customer) ≠ [] := by
  refine ⟨by decide, rfl, by decide, by decide⟩

/-- C8 (amended): only the second `App.tsx` copy's file-import flow gates
the state update on the save's reported success — advancing to the merged
list exactly when the save reports success and retaining the previous
list (and reporting failure) otherwise; the first copy's file-import flow
and both backup-import flows assign the merged list after the save
completes regardless of the reported result. -/
theorem claim8_state_after_save :
    ∀ (now : Nat) (store : Store) (prev enhanced imported : List Customer),
    handleFilesSelectV2 now true store prev enhanced
      = (mergeCustomers prev enhanced,
         some (Except.ok ((mergeCustomers prev enhanced).map (saveStamp now))),
         true)
  ∧ handleFilesSelectV2 now false store prev enhanced = (prev, store, false)
  ∧ (∀ writeOk,
      (handleFilesSelectV1 now writeOk store prev enhanced).1
        = mergeCustomers prev enhanced
      ∧ (handleFilesSelectV1 now writeOk store prev enhanced).2.2 = true)
  ∧ (∀ writeOk,
      (handleImportJsonUpdate now writeOk store prev imported).1
        = mergeCustomers prev imported
      ∧ (handleImportJsonUpdate now writeOk store prev imported).2.2 = true) := by
  intro now store prev enhanced imported
  exact ⟨rfl, rfl, fun _ => ⟨rfl, rfl⟩, fun _ => ⟨rfl, rfl⟩⟩

/-! ### Aggregation lemmas -/

/-- Keys of the stats object, in enumeration-insertion order. -/
def statsKeys (stats : List (String × Nat)) : List String := stats.map Prod.fst

/-- Total of all counts in the stats object. -/
def sumCounts (stats : List (String × Nat)) : Nat := (stats.map Prod.snd).sum

theorem any_key_eq_decide (stats : List (String × Nat)) (k : String) :
    (stats.any (fun p => p.1 = k)) = decide (k ∈ statsKeys stats) := by
  induction stats with
  | nil => rfl
  | cons p t ih =>
      by_cases h : p.1 = k
      · simp [statsKeys, h]
      · simp only [List.any_cons, ih, statsKeys, List.map_cons, List.mem_cons]
        simp [h, Ne.symm h]

theorem jsRecordBump_keys_of_mem (stats : List (String × Nat)) (k : String)
    (hk : k ∈ statsKeys stats) :
    jsRecordBump stats k
      = stats.map (fun p => if p.1 = k then (p.1, p.2 + 1) else p)
    ∧ statsKeys (jsRecordBump stats k) = statsKeys stats := by
  have hany : stats.any (fun p => p.1 = k) = true := by
    rw [any_key_eq_decide]
    exact decide_eq_true hk
  constructor
  · unfold jsRecordBump
    rw [if_pos hany]
  · unfold jsRecordBump statsKeys
    rw [if_pos hany, List.map_map]
    refine List.map_congr_left ?_
    intro p _
    by_cases h : p.1 = k
    · simp [h]
    · simp [h]

theorem jsRecordBump_keys_of_not_mem (stats : List (String × Nat)) (k : String)
    (hk : k ∉ statsKeys stats) :
    jsRecordBump stats k = stats ++ [(k, 1)] := by
  have hany : stats.any (fun p => p.1 = k) = false := by
    rw [any_key_eq_decide]
    exact decide_eq_false hk
  unfold jsRecordBump
  rw [hany]
  simp

theorem sum_bump_map (stats : List (String × Nat)) (k : String)
    (hnd : (statsKeys stats).Nodup) (hk : k ∈ statsKeys stats) :
    sumCounts (stats.map (fun p => if p.1 = k then (p.1, p.2 + 1) else p))
      = sumCounts stats + 1 := by
  induction stats with
  | nil => cases hk
  | cons p t ih =>
      rw [statsKeys, List.map_cons, List.nodup_cons] at hnd
      by_cases h : p.1 = k
      · have htid : t.map (fun q => if q.1 = k then (q.1, q.2 + 1) else q) = t :=
          calc t.map (fun q => if q.1 = k then (q.1, q.2 + 1) else q)
              = t.map id := by
                refine List.map_congr_left ?_
                intro q hq
                have hqk : q.1 ≠ k := by
                  intro hqk
                  refine hnd.1 ?_
                  rw [h, ← hqk]
                  exact List.mem_map_of_mem Prod.fst hq
                simp [hqk]
            _ = t := List.map_id t
        simp only [List.map_cons, if_pos h, sumCounts, htid]
        simp [List.sum_cons]
        omega
      · have hk' : k ∈ statsKeys t := by
          rcases List.mem_cons.mp (show k ∈ p.1 :: statsKeys t from hk) with h1 | h1
          · exact absurd h1.symm h
          · exact h1
        have := ih hnd.2 hk'
        simp only [List.map_cons, if_neg h, sumCounts, List.map_cons,
          List.sum_cons] at this ⊢
        omega

/-- The number of processed records with exactly this city. -/
def countCity (processed : List Customer) (k : String) : Nat :=
  (processed.filter (fun c => c.city = k)).length

/-- Invariant carried through the `cityStats` accumulation loop. -/
def StatsInv (processed : List Customer) (stats : List (String × Nat)) : Prop :=
  (statsKeys stats).Nodup
  ∧ (∀ p ∈ stats, jsTruthyStr p.1 = true ∧ p.2 = countCity processed p.1 ∧ 0 < p.2)
  ∧ (∀ c ∈ processed, jsTruthyStr c.city = true → c.city ∈ statsKeys stats)
  ∧ sumCounts stats = (processed.filter (fun c => jsTruthyStr c.city)).length
  ∧ statsKeys stats = firstSeenCities processed

theorem countCity_append (processed : List Customer) (c : Customer) (k : String) :
    countCity (processed ++ [c]) k
      = countCity processed k + (if c.city = k then 1 else 0) := by
  unfold countCity
  rw [List.filter_append, List.length_append]
  by_cases h : c.city = k <;> simp [h]

theorem firstSeenCities_append (processed : List Customer) (c : Customer) :
    firstSeenCities (processed ++ [c])
      = (if jsTruthyStr c.city && !((firstSeenCities processed).contains c.city)
          then firstSeenCities processed ++ [c.city]
          else firstSeenCities processed) := by
  unfold firstSeenCities
  rw [List.foldl_append]
  rfl

theorem statsInv_step (processed : List Customer) (c : Customer)
    (stats : List (String × Nat)) (h : StatsInv processed stats) :
    StatsInv (processed ++ [c])
      (if jsTruthyStr c.city then jsRecordBump stats c.city else stats) := by
  obtain ⟨hnd, hval, hcomp, hsum, hfs⟩ := h
  by_cases htru : jsTruthyStr c.city = true
  · rw [if_pos htru]
    by_cases hmem : c.city ∈ statsKeys stats
    · obtain ⟨hbump, hkeys⟩ := jsRecordBump_keys_of_mem stats c.city hmem
      refine ⟨hkeys ▸ hnd, ?_, ?_, ?_, ?_⟩
      · intro q hq
        rw [hbump] at hq
        obtain ⟨p, hp, rfl⟩ := List.mem_map.mp hq
        by_cases hpk : p.1 = c.city
        · rw [if_pos hpk]
          refine ⟨(hval p hp).1, ?_, Nat.succ_pos _⟩
          rw [countCity_append, if_pos hpk.symm, (hval p hp).2.1]
        · rw [if_neg hpk]
          refine ⟨(hval p hp).1, ?_, (hval p hp).2.2⟩
          rw [countCity_append, if_neg (fun hh => hpk hh.symm), (hval p hp).2.1]
          omega
      · intro c' hc' htru'
        rw [hkeys]
        rcases List.mem_append.mp hc' with hold | hnew
        · exact hcomp c' hold htru'
        · rw [List.mem_singleton.mp hnew]
          exact hmem
      · rw [hbump, sum_bump_map stats c.city hnd hmem, hsum,
          List.filter_append, List.length_append]
        simp [htru]
      · rw [hkeys, firstSeenCities_append, hfs]
        have hcont : (firstSeenCities processed).contains c.city = true := by
          rw [← hfs, contains_eq_decide_mem]
          exact decide_eq_true hmem
        rw [hcont]
        simp
    · rw [jsRecordBump_keys_of_not_mem stats c.city hmem]
      have hcnt0 : countCity processed c.city = 0 := by
        by_contra hcnt
        have hpos : 0 < countCity processed c.city := Nat.pos_of_ne_zero hcnt
        have hne : processed.filter (fun c' => c'.city = c.city) ≠ [] := by
          intro hnil
          rw [countCity, hnil] at hpos
          exact absurd hpos (by simp)
        obtain ⟨c', hc'⟩ := List.exists_mem_of_ne_nil _ hne
        obtain ⟨hcl, hceq⟩ := List.mem_filter.mp hc'
        have hcity : c'.city = c.city := of_decide_eq_true hceq
        exact hmem (hcity ▸ hcomp c' hcl (hcity.symm ▸ htru))
      refine ⟨?_, ?_, ?_, ?_, ?_⟩
      · rw [statsKeys, List.map_append]
        rw [List.nodup_append]
        refine ⟨hnd, List.nodup_singleton _, ?_⟩
        intro x hx hx'
        have hxc : x = c.city := by simpa using hx'
        rw [hxc] at hx
        exact hmem hx
      · intro q hq
        rcases List.mem_append.mp hq with hold | hnew
        · obtain ⟨h1, h2, h3⟩ := hval q hold
          have hqk : ¬ (c.city = q.1) := by
            intro hh
            exact hmem (hh ▸ List.mem_map_of_mem Prod.fst hold)
          exact ⟨h1, by rw [countCity_append, if_neg hqk, h2]; omega, h3⟩
        · rw [List.mem_singleton.mp hnew]
          refine ⟨htru, ?_, Nat.one_pos⟩
          rw [countCity_append, if_pos rfl, hcnt0]
      · intro c' hc' htru'
        rw [statsKeys, List.map_append]
        rcases List.mem_append.mp hc' with hold | hnew
        · exact List.mem_append_left _ (hcomp c' hold htru')
        · rw [List.mem_singleton.mp hnew]
          exact List.mem_append_right _ (by simp)
      · rw [sumCounts, List.map_append, List.sum_append, List.filter_append,
          List.length_append]
        have : sumCounts stats = (processed.filter (fun c => jsTruthyStr c.city)).length :=
          hsum
        rw [sumCounts] at this
        rw [this]
        simp [htru]
      · rw [statsKeys, List.map_append, firstSeenCities_append]
        have hcont : (firstSeenCities processed).contains c.city = false := by
          rw [← hfs, contains_eq_decide_mem]
          exact decide_eq_false hmem
        rw [hcont]
        simp [htru, ← hfs, statsKeys]
  · rw [if_neg htru]
    have hf : jsTruthyStr c.city = false := by
      revert htru
      cases jsTruthyStr c.city <;> simp
    refine ⟨hnd, ?_, ?_, ?_, ?_⟩
    · intro p hp
      obtain ⟨h1, h2, h3⟩ := hval p hp
      have hck : ¬ (c.city = p.1) := by
        intro hh
        rw [hh] at hf
        rw [h1] at hf
        cases hf
      exact ⟨h1, by rw [countCity_append, if_neg hck, h2]; omega, h3⟩
    · intro c' hc' htru'
      rcases List.mem_append.mp hc' with hold | hnew
      · exact hcomp c' hold htru'
      · rw [List.mem_singleton.mp hnew] at htru'
        rw [htru'] at hf
        cases hf
    · rw [List.filter_append, List.length_append, hsum]
      simp [hf]
    · rw [firstSeenCities_append, hf]
      simp [hfs]

theorem statsInv_foldl : ∀ (l processed : List Customer)
    (stats : List (String × Nat)), StatsInv processed stats →
    StatsInv (processed ++ l)
      (l.foldl (fun stats c =>
        if jsTruthyStr c.city then jsRecordBump stats c.city else stats) stats) := by
  intro l
  induction l with
  | nil =>
      intro processed stats h
      simpa using h
  | cons c t ih =>
      intro processed stats h
      have hrest := ih (processed ++ [c]) _ (statsInv_step processed c stats h)
      rw [List.append_assoc, List.singleton_append] at hrest
      exact hrest

theorem buildStats_inv (l : List Customer) : StatsInv l (buildStats l) := by
  have h0 : StatsInv [] [] := by
    refine ⟨List.nodup_nil, ?_, ?_, rfl, rfl⟩
    · intro p hp
      cases hp
    · intro c hc
      cases hc
  have := statsInv_foldl l [] [] h0
  rw [List.nil_append] at this
  exact this

theorem orderedInsert_filter {A : Type} (r : A → A → Prop) [DecidableRel r]
    (p : A → Bool)
    (hcompat : ∀ a b, p a = true → ¬ r a b → p b = false) (a : A) :
    ∀ l : List A, (List.orderedInsert r a l).filter p
      = if p a then a :: l.filter p else l.filter p := by
  intro l
  induction l with
  | nil =>
      cases hpa : p a <;> simp [List.orderedInsert, List.filter_cons, hpa]
  | cons b t ih =>
      rw [List.orderedInsert]
      by_cases hr : r a b
      · rw [if_pos hr]
        cases hpa : p a <;> simp [List.filter_cons, hpa]
      · rw [if_neg hr]
        cases hpa : p a
        · rw [if_neg (by simp)]
          cases hpb : p b <;>
            simp [List.filter_cons, hpb, ih, hpa]
        · have hpb := hcompat a b hpa hr
          rw [if_pos rfl]
          simp [List.filter_cons, hpb, ih, hpa]

theorem insertionSort_filter {A : Type} (r : A → A → Prop) [DecidableRel r]
    (p : A → Bool)
    (hcompat : ∀ a b, p a = true → ¬ r a b → p b = false) :
    ∀ l : List A, (List.insertionSort r l).filter p = l.filter p := by
  intro l
  induction l with
  | nil => rfl
  | cons a t ih =>
      rw [List.insertionSort, orderedInsert_filter r p hcompat a _, ih]
      cases hpa : p a <;> simp [List.filter_cons, hpa]

theorem jsObjectEntries_perm (stats : List (String × Nat)) :
    List.Perm (jsObjectEntries stats) stats := by
  unfold jsObjectEntries
  exact ((List.perm_insertionSort keyAscOrder _).append
    (List.Perm.refl _)).trans (List.filter_append_perm _ stats)

theorem jsObjectEntries_of_no_index (stats : List (String × Nat))
    (h : ∀ p ∈ stats, isArrayIndexKey p.1 = false) :
    jsObjectEntries stats = stats := by
  unfold jsObjectEntries
  have h1 : stats.filter (fun p => isArrayIndexKey p.1) = [] :=
    List.filter_eq_nil_iff.mpr (fun a ha => by simp [h a ha])
  have h2 : stats.filter (fun p => !(isArrayIndexKey p.1)) = stats :=
    List.filter_eq_self.mpr (fun a ha => by simp [h a ha])
  rw [h1, h2]
  rfl

theorem cityStats_perm (l : List Customer) :
    List.Perm (cityStats l)
      ((buildStats l).map (fun p => CityStat.mk p.1 p.2)) := by
  unfold cityStats
  exact (List.perm_insertionSort countDescOrder _).trans
    ((jsObjectEntries_perm (buildStats l)).map _)

/-- Two records with tied counts whose cities are a plain string and an
integer-like string. -/
def custA : Customer := { id := "a", name := "nA", address := "adA", city := "A" }

def custNum : Customer := { id := "b", name := "nB", address := "adB", city := "1" }

/-- C10 counterexample: with cities `"A"` (seen first) and `"1"` (seen
second), both of count 1, the aggregate lists `"1"` first — the JS object
enumerates integer-like keys before insertion order, so the tie is NOT
broken by first-seen order, which would demand `"A"` first. -/
theorem claim10_counterexample :
    cityStats [custA, custNum] = [⟨"1", 1⟩, ⟨"A", 1⟩]
  ∧ cityStats [custA, custNum] ≠ [⟨"A", 1⟩, ⟨"1", 1⟩]
  ∧ firstSeenCities [custA, custNum] = ["A", "1"] := by
  refine ⟨by decide, by decide, by decide⟩

/-- C10 (amended): the aggregate excludes records with an empty city,
groups the rest by exact string equality, and returns (city, count) pairs
sorted non-increasing by count whose counts sum to the number of records
with non-empty city; the stats entries are accumulated in first-seen
order of the cities, and provided no city is a canonical array-index
string, ties keep exactly that first-seen entry order (with such cities,
JS object enumeration places them first instead). -/
theorem claim10_city_stats : ∀ l : List Customer,
    (cityStats l).Pairwise countDescOrder
  ∧ ((cityStats l).map CityStat.count).sum
      = (l.filter (fun c => jsTruthyStr c.city)).length
  ∧ (∀ s ∈ cityStats l, jsTruthyStr s.city = true
      ∧ s.count = (l.filter (fun c => c.city = s.city)).length)
  ∧ ((cityStats l).map CityStat.city).Nodup
  ∧ (∀ c ∈ l, jsTruthyStr c.city = true →
      c.city ∈ (cityStats l).map CityStat.city)
  ∧ ((∀ c ∈ l, isArrayIndexKey c.city = false) →
      ∀ n, (cityStats l).filter (fun s => s.count = n)
        = ((buildStats l).map (fun p => CityStat.mk p.1 p.2)).filter
            (fun s => s.count = n))
  ∧ (buildStats l).map Prod.fst = firstSeenCities l := by
  intro l
  obtain ⟨hnd, hval, hcomp, hsum, hfs⟩ := buildStats_inv l
  have hperm := cityStats_perm l
  have hpm : List.Perm ((cityStats l).map CityStat.city)
      ((buildStats l).map Prod.fst) := by
    have h1 := hperm.map CityStat.city
    rw [List.map_map] at h1
    exact h1
  refine ⟨?_, ?_, ?_, ?_, ?_, ?_, hfs⟩
  · exact List.sorted_insertionSort countDescOrder _
  · have h1 : ((cityStats l).map CityStat.count).sum
        = (((buildStats l).map (fun p => CityStat.mk p.1 p.2)).map
            CityStat.count).sum :=
      (hperm.map CityStat.count).sum_eq
    rw [h1, List.map_map]
    exact hsum
  · intro s hs
    obtain ⟨p, hp, rfl⟩ := List.mem_map.mp (hperm.mem_iff.mp hs)
    obtain ⟨h1, h2, h3⟩ := hval p hp
    exact ⟨h1, h2⟩
  · exact hpm.nodup_iff.mpr hnd
  · intro c hc htru
    exact hpm.mem_iff.mpr (hcomp c hc htru)
  · intro hnoidx n
    have hkeysnoidx : ∀ p ∈ buildStats l, isArrayIndexKey p.1 = false := by
      intro p hp
      obtain ⟨h1, h2, h3⟩ := hval p hp
      have hpos : 0 < countCity l p.1 := h2 ▸ h3
      have hne : l.filter (fun c => c.city = p.1) ≠ [] := by
        intro hnil
        rw [countCity, hnil] at hpos
        exact absurd hpos (by simp)
      obtain ⟨c, hcmem⟩ := List.exists_mem_of_ne_nil _ hne
      obtain ⟨hcl, hceq⟩ := List.mem_filter.mp hcmem
      have hcity : c.city = p.1 := of_decide_eq_true hceq
      rw [← hcity]
      exact hnoidx c hcl
    unfold cityStats
    rw [jsObjectEntries_of_no_index _ hkeysnoidx]
    refine insertionSort_filter countDescOrder _ ?_ _
    intro a b hpa hnr
    have ha : a.count = n := of_decide_eq_true hpa
    have hb : ¬ (b.count ≤ a.count) := hnr
    refine decide_eq_false ?_
    intro heq
    omega

/-- Scenario E records: cities A, B, A, and empty. -/
def custB : Customer := { id := "c", name := "nC", address := "adC", city := "B" }

def custA2 : Customer := { id := "d", name := "nD", address := "adD", city := "A" }

def custEmpty : Customer := { id := "e", name := "nE", address := "adE", city := "" }

def scenarioE : List Customer := [custA, custB, custA2, custEmpty]

/-- C10 witness: the amended theorem applied to Scenario E — the entry
`("A", 2)` of the aggregate has a truthy city whose count matches the
records with that city, and with no integer-like city the tie-broken
order coincides with the accumulated first-seen entries. -/
theorem claim10_witness :
    (jsTruthyStr (CityStat.mk "A" 2).city = true
      ∧ (CityStat.mk "A" 2).count
          = (scenarioE.filter (fun c => c.city = (CityStat.mk "A" 2).city)).length)
  ∧ (cityStats scenarioE).filter (fun s => s.count = 1)
      = ((buildStats scenarioE).map (fun p => CityStat.mk p.1 p.2)).filter
          (fun s => s.count = 1) := by
  have h := claim10_city_stats scenarioE
  exact ⟨h.2.2.1 (CityStat.mk "A" 2) (by decide),
    h.2.2.2.2.2.1 (by decide) 1⟩

/-! ### Refined load model: host Date parsing and the sort comparator

`saveCustomersToDB` in `services/storage.ts` stamps `createdAt` with
`new Date().toLocaleString('zh-TW')`, and the loader's comparator feeds
the stored string back through `new Date(...)`.  Date-string parsing is
host-defined, and mainstream engines reject the zh-TW locale stamp,
yielding NaN; the ES `SortCompare` operation maps a NaN comparator
result to +0, i.e. a tie, and a tie between two elements forces a stable
sort to keep their input order.  This model keeps the stored `createdAt`
string and abstracts the host parser as a function into a
number-or-NaN result. -/

/-- A JS number as `getTime()` returns it: a time value or NaN. -/
inductive JsNum where
  | num (n : Nat)
  | nan
deriving DecidableEq, Repr

/-- A persisted record as the load comparator sees it: its identity and
the stored `createdAt` string (absent when never stamped).  The other
fields do not influence the load order. -/
structure StoredRecord where
  id : String
  createdAt : Option String := none
deriving DecidableEq, Repr

/-- `new Date(r.createdAt || 0).getTime()`: a missing or empty (falsy)
`createdAt` is the epoch; otherwise the host parser decides. -/
def jsDateVal (parse : String → JsNum) (r : StoredRecord) : JsNum :=
  match r.createdAt with
  | none => JsNum.num 0
  | some s => if s.isEmpty then JsNum.num 0 else parse s

/-- The comparator `(a, b) => dateB - dateA` as `SortCompare` interprets
it: a genuine difference when both dates are numbers, and +0 (a tie)
when either is NaN. -/
def sortCompare (parse : String → JsNum) (a b : StoredRecord) : Int :=
  match jsDateVal parse b, jsDateVal parse a with
  | JsNum.num nb, JsNum.num na => (nb : Int) - (na : Int)
  | _, _ => 0

/-- `a` may stay before `b`: the comparator does not demand swapping. -/
def jsLe (parse : String → JsNum) (a b : StoredRecord) : Prop :=
  sortCompare parse a b ≤ 0

instance (parse : String → JsNum) : DecidableRel (jsLe parse) :=
  fun a b => inferInstanceAs (Decidable (sortCompare parse a b ≤ 0))

/-- The numeric reading of a `JsNum` (0 for NaN; only used where NaN is
excluded by hypothesis). -/
def timeNum : JsNum → Nat
  | JsNum.num n => n
  | JsNum.nan => 0

/-- Non-increasing by `createdAt` time value. -/
def storedDescOrder (parse : String → JsNum) (a b : StoredRecord) : Prop :=
  timeNum (jsDateVal parse b) ≤ timeNum (jsDateVal parse a)

instance (parse : String → JsNum) : DecidableRel (storedDescOrder parse) :=
  fun _ _ => Nat.decLe _ _

instance (parse : String → JsNum) : IsTotal StoredRecord (storedDescOrder parse) :=
  ⟨fun a b => Nat.le_total (timeNum (jsDateVal parse b)) (timeNum (jsDateVal parse a))⟩

instance (parse : String → JsNum) : IsTrans StoredRecord (storedDescOrder parse) :=
  ⟨fun _ _ _ h1 h2 => Nat.le_trans h2 h1⟩

/-- `loadCustomersFromDB` of `services/storage.ts` over the refined
records: absent key or unparseable blob yields `[]`; a parsed list is
stable-sorted by the NaN-tolerant comparator. -/
def loadCustomersFromDBJs (parse : String → JsNum)
    (stored : Option (Except Unit (List StoredRecord))) : List StoredRecord :=
  match stored with
  | none => []
  | some (Except.error _) => []
  | some (Except.ok l) => List.insertionSort (jsLe parse) l

theorem orderedInsert_congr {A : Type} (r1 r2 : A → A → Prop)
    [DecidableRel r1] [DecidableRel r2] (P : A → Prop)
    (hagree : ∀ a b, P a → P b → (r1 a b ↔ r2 a b)) :
    ∀ (a : A) (l : List A), P a → (∀ x ∈ l, P x) →
      List.orderedInsert r1 a l = List.orderedInsert r2 a l := by
  intro a l
  induction l with
  | nil => intro _ _; rfl
  | cons b t ih =>
      intro hpa hpl
      rw [List.orderedInsert, List.orderedInsert]
      by_cases h2 : r2 a b
      · rw [if_pos ((hagree a b hpa (hpl b (List.mem_cons_self b t))).mpr h2),
          if_pos h2]
      · rw [if_neg (fun h1 => h2 ((hagree a b hpa
            (hpl b (List.mem_cons_self b t))).mp h1)),
          if_neg h2, ih hpa (fun x hx => hpl x (List.mem_cons_of_mem b hx))]

theorem insertionSort_congr {A : Type} (r1 r2 : A → A → Prop)
    [DecidableRel r1] [DecidableRel r2] (P : A → Prop)
    (hagree : ∀ a b, P a → P b → (r1 a b ↔ r2 a b)) :
    ∀ l : List A, (∀ x ∈ l, P x) →
      List.insertionSort r1 l = List.insertionSort r2 l := by
  intro l
  induction l with
  | nil => intro _; rfl
  | cons a t ih =>
      intro hpl
      rw [List.insertionSort, List.insertionSort,
        ih (fun x hx => hpl x (List.mem_cons_of_mem a hx))]
      exact orderedInsert_congr r1 r2 P hagree a _
        (hpl a (List.mem_cons_self a t))
        (fun x hx => hpl x (List.mem_cons_of_mem a
          ((List.perm_insertionSort r2 t).mem_iff.mp hx)))

/-- The timestamp string `new Date().toLocaleString('zh-TW')` writes. -/
def zhStamp : String := "2025/10/11 下午10:53:07"

/-- The relevant fragment of a mainstream host Date parser: the zh-TW
locale stamp does not parse (NaN).  Its values on other strings are
irrelevant to the inputs it is applied to. -/
def parseZhNaN : String → JsNum :=
  fun s => if s = zhStamp then JsNum.nan else JsNum.num 0

def recMissing : StoredRecord := { id := "m" }

def recZh : StoredRecord := { id := "z", createdAt := some zhStamp }

/-- C3 counterexample: load a snapshot holding a record with no
`createdAt` followed by a record stamped with the zh-TW string the save
itself writes, in an engine whose Date parser rejects that stamp.  Both
comparator calls yield a tie (NaN becomes +0), so the stable sort must
return the two records unmoved: the missing-`createdAt` record comes
first, ahead of a record that has `createdAt` — it does not sort last,
refuting the claimed ordering guarantee. -/
theorem claim3_counterexample :
    loadCustomersFromDBJs parseZhNaN (some (Except.ok [recMissing, recZh]))
      = [recMissing, recZh]
  ∧ recMissing.createdAt = none
  ∧ recZh.createdAt = some zhStamp
  ∧ sortCompare parseZhNaN recMissing recZh = 0
  ∧ sortCompare parseZhNaN recZh recMissing = 0 := by
  refine ⟨?_, rfl, rfl, ?_, ?_⟩ <;> rfl

/-- C3 (amended): load returns a permutation of the parsed stored
records; a missing `createdAt` gets the epoch time value, so it is
never strictly newer than any record; a record whose stored `createdAt`
the host parser rejects (NaN) ties with every record under the
comparator; and provided no stored record's `createdAt` evaluates to
NaN, the result is non-increasing by `createdAt` time value — whence the
epoch-valued missing records sort last.  Without that proviso the
comparator is inconsistent and no ordering is guaranteed. -/
theorem claim3_load_order :
    ∀ (parse : String → JsNum) (l : List StoredRecord) (r a b : StoredRecord),
    (loadCustomersFromDBJs parse (some (Except.ok l))).Perm l
  ∧ (r.createdAt = none → jsDateVal parse r = JsNum.num 0)
  ∧ (jsDateVal parse a = JsNum.nan →
      sortCompare parse a b = 0 ∧ sortCompare parse b a = 0)
  ∧ (b.createdAt = none → storedDescOrder parse a b)
  ∧ ((∀ x ∈ l, jsDateVal parse x ≠ JsNum.nan) →
      (loadCustomersFromDBJs parse (some (Except.ok l))).Pairwise
        (storedDescOrder parse)) := by
  intro parse l r a b
  refine ⟨?_, ?_, ?_, ?_, ?_⟩
  · exact List.perm_insertionSort (jsLe parse) l
  · intro h
    unfold jsDateVal
    rw [h]
  · intro ha
    constructor
    · unfold sortCompare
      rw [ha]
      cases jsDateVal parse b <;> rfl
    · unfold sortCompare
      rw [ha]
  · intro hb
    unfold storedDescOrder
    have hv : jsDateVal parse b = JsNum.num 0 := by
      unfold jsDateVal
      rw [hb]
    rw [hv]
    exact Nat.zero_le _
  · intro hno
    have hcong : List.insertionSort (jsLe parse) l
        = List.insertionSort (storedDescOrder parse) l := by
      refine insertionSort_congr _ _ (fun x => jsDateVal parse x ≠ JsNum.nan)
        ?_ l hno
      intro x y hx hy
      rcases hjx : jsDateVal parse x with nx | _
      · rcases hjy : jsDateVal parse y with ny | _
        · unfold jsLe sortCompare storedDescOrder
          rw [hjx, hjy]
          simp only [timeNum]
          constructor <;> intro <;> omega
        · exact absurd hjy hy
      · exact absurd hjx hx
    show (List.insertionSort (jsLe parse) l).Pairwise (storedDescOrder parse)
    rw [hcong]
    exact List.sorted_insertionSort (storedDescOrder parse) l

/-- A host parser for the witness: decimal digit strings parse to their
value. -/
def parseDecimal : String → JsNum :=
  fun s => JsNum.num ((digitsToNat s.data).getD 0)

def storedA : StoredRecord := { id := "a", createdAt := some "1" }

def storedB : StoredRecord := { id := "b", createdAt := some "3" }

def storedC : StoredRecord := { id := "c" }

/-- C3 witness: the amended theorem at a snapshot whose stamps all
parse — load permutes the records into non-increasing time order, the
unstamped record has the epoch value and is orderable after any
record. -/
theorem claim3_witness :
    (loadCustomersFromDBJs parseDecimal
        (some (Except.ok [storedA, storedB, storedC]))).Perm
      [storedA, storedB, storedC]
  ∧ jsDateVal parseDecimal storedC = JsNum.num 0
  ∧ (loadCustomersFromDBJs parseDecimal
        (some (Except.ok [storedA, storedB, storedC]))).Pairwise
      (storedDescOrder parseDecimal)
  ∧ storedDescOrder parseDecimal storedA storedC := by
  have h := claim3_load_order parseDecimal [storedA, storedB, storedC]
    storedC storedA storedC
  exact ⟨h.1, h.2.1 rfl, h.2.2.2.2 (by decide), h.2.2.2.1 rfl⟩

end CustomerApp

